import Mathlib

/-
Verification of the mbed Simple Car Microcontroller control loops
(src/main.cpp), shallowly embedded over exact rationals.

Each task body (the code inside one iteration of its while loop) is
translated as a pure state-transformer on the shared globals.  C++ floats
are modelled as rationals; the float-to-int conversion performed when a
speed is pushed into the std::deque of ints is modelled by truncation
toward zero; the float division in calcAverageSpeed is modelled as a
fallible operation (Option) so that the division-by-zero case at startup
is visible.
-/

namespace CarSim

/-- MIN_SPEED from src/main.cpp line 13. -/
def MIN_SPEED : ℚ := 0

/-- MAX_SPEED from src/main.cpp line 14. -/
def MAX_SPEED : ℚ := 300

/-- LEGAL_SPEED from src/main.cpp line 15. -/
def LEGAL_SPEED : ℚ := 142

/-- CRUISE_SPEED from src/main.cpp line 16. -/
def CRUISE_SPEED : ℚ := 80

/-- CRUISE_BIAS from src/main.cpp line 17. -/
def CRUISE_BIAS : ℚ := 1 / 10

/-- FRICTION from src/main.cpp line 18. -/
def FRICTION : ℚ := 1 / 1000

/-- FRICTION_BIAS from src/main.cpp line 19. -/
def FRICTION_BIAS : ℚ := 4 / 5

/-- The shared global variables of src/main.cpp (lines 36-45): ignition,
cruise_mode, accel, brakes, current_speed, average_speed, odometry and the
speed-history deque.  The deque is `std::deque<int>`, so its entries are
integers. -/
structure CarState where
  ignition : Bool
  cruise_mode : Bool
  accel : ℚ
  brakes : ℚ
  current_speed : ℚ
  average_speed : ℚ
  odometry : ℚ
  avg_speed_queue : List ℤ
deriving DecidableEq

/-- C++ float-to-int conversion: truncation toward zero. -/
def f2i (q : ℚ) : ℤ :=
  if q < 0 then -Int.floor (-q) else Int.floor q

/-- Drag update, src/main.cpp line 195: current_speed -= FRICTION*current_speed. -/
def applyDrag (v : ℚ) : ℚ := v - FRICTION * v

/-- Lower clamp, src/main.cpp line 197. -/
def clampLow (v : ℚ) : ℚ := if v < MIN_SPEED then MIN_SPEED else v

/-- Upper clamp, src/main.cpp line 198 (runs after the lower clamp). -/
def clampHigh (v : ℚ) : ℚ := if v > MAX_SPEED then MAX_SPEED else v

/-- Both clamps in source order. -/
def clampSpeed (v : ℚ) : ℚ := clampHigh (clampLow v)

/-- The pedal integration of src/main.cpp lines 186-192, before drag: with
ignition on, current_speed += accel - brakes; with ignition off, accel is
first forced to 0 and current_speed += accel - 0.5*brakes. -/
def preDragSpeed (s : CarState) : ℚ :=
  if s.ignition then s.current_speed + (s.accel - s.brakes)
  else s.current_speed + (0 - (1 / 2) * s.brakes)

/-- Queue update of src/main.cpp lines 199-202: pop the front when more than
3 entries are stored, then push the (int-converted) new speed at the back. -/
def pushSpeed (q : List ℤ) (v : ℚ) : List ℤ :=
  (if q.length > 3 then q.tail else q) ++ [f2i v]

/-- One iteration of simulateCar (src/main.cpp lines 182-209): pedal
integration, drag, clamping, queue update, odometry integration.  The accel
field is forced to 0 when ignition is off (line 190). -/
def simulateCar (s : CarState) : CarState :=
  let v := clampSpeed (applyDrag (preDragSpeed s))
  { s with
    accel := if s.ignition then s.accel else 0
    current_speed := v
    avg_speed_queue := pushSpeed s.avg_speed_queue v
    odometry := s.odometry + v * (1 / 25) }

/-- One iteration of readInputs (src/main.cpp lines 67-82): store the
ignition bit; when cruise mode is off, also store the accelerator and brake
bits as 0/1 pedal commands.  The three Booleans are the values read from the
digital-input collaborator this cycle. -/
def readInputs (engineBit accelBit brakeBit : Bool) (s : CarState) : CarState :=
  let s1 := { s with ignition := engineBit }
  if s1.cruise_mode then s1
  else { s1 with
         accel := if accelBit then 1 else 0
         brakes := if brakeBit then 1 else 0 }

/-- One iteration of cruiseControl (src/main.cpp lines 143-170): store the
cruise switch bit; when cruise mode and ignition are both on, set the pedal
commands by the proportional law of lines 152-164.  ccBit is the value read
from the cruise switch this cycle. -/
def cruiseControl (ccBit : Bool) (s : CarState) : CarState :=
  let s1 := { s with cruise_mode := ccBit }
  if ccBit && s.ignition then
    if s.current_speed > CRUISE_SPEED + FRICTION_BIAS then
      { s1 with
        accel := 0
        brakes := (s.current_speed - CRUISE_SPEED) / CRUISE_SPEED + CRUISE_BIAS }
    else if s.current_speed < CRUISE_SPEED + FRICTION_BIAS then
      { s1 with
        accel := (CRUISE_SPEED - s.current_speed) / CRUISE_SPEED + CRUISE_BIAS
        brakes := 0 }
    else
      { s1 with accel := 0, brakes := 0 }
  else s1

/-- The fallible float division of src/main.cpp line 100: sum of the queue
entries divided by the queue size.  The sum is accumulated left to right as
in the iterator loop of lines 97-99.  When the queue is empty the division
divides by zero (in IEEE floats, 0.0f/0 is NaN); that case is modelled as
none. -/
def calcAverage (q : List ℤ) : Option ℚ :=
  if q.length = 0 then none
  else some ((q.foldl (fun (acc : ℚ) (x : ℤ) => acc + (x : ℚ)) 0) / (q.length : ℚ))

/-- One iteration of calcAverageSpeed (src/main.cpp lines 92-106): update
average_speed with the mean of the queue and report the speeding indicator
(average_speed > LEGAL_SPEED).  none when the mean is undefined (empty
queue, division by zero). -/
def calcAverageSpeedTask (s : CarState) : Option (CarState × Bool) :=
  (calcAverage s.avg_speed_queue).map
    (fun a => ({ s with average_speed := a }, decide (a > LEGAL_SPEED)))

/-- One iteration of displayToLCD (src/main.cpp lines 115-130) as a state
transformer: the task only reads average_speed and odometry and writes to
the LCD; it writes no shared variable. -/
def displayToLCD (s : CarState) : CarState := s

/-- The per-cycle environment seen by simulateCar: the ignition, accel and
brakes values left in the shared state by the other tasks before the cycle. -/
def setInputs (e : Bool × ℚ × ℚ) (s : CarState) : CarState :=
  { s with ignition := e.1, accel := e.2.1, brakes := e.2.2 }

/-- n cycles of simulateCar from s0, with arbitrary inputs (env n) installed
before the n-th cycle.  Models any interleaving of the input-writing tasks
with the Physics Integrator. -/
def runSim (env : ℕ → Bool × ℚ × ℚ) (s0 : CarState) : ℕ → CarState
  | 0 => s0
  | n + 1 => simulateCar (setInputs (env n) (runSim env s0 n))

/-- The list of the post-clamp speeds of the first n simulateCar cycles,
truncated to int as pushed into the queue, in cycle order. -/
def histList (env : ℕ → Bool × ℚ × ℚ) (s0 : CarState) (n : ℕ) : List ℤ :=
  (List.range n).map (fun i => f2i ((runSim env s0 (i + 1)).current_speed))

/-- The initial values of the globals of src/main.cpp lines 36-45. -/
def initState : CarState :=
  { ignition := false, cruise_mode := false, accel := 0, brakes := 0,
    current_speed := 0, average_speed := 0, odometry := 0, avg_speed_queue := [] }

/-- The accelerator command the cruise controller computes at speed v
(src/main.cpp lines 152-164), as a function of the speed alone. -/
def cruiseAccel (v : ℚ) : ℚ :=
  if v > CRUISE_SPEED + FRICTION_BIAS then 0
  else if v < CRUISE_SPEED + FRICTION_BIAS then
    (CRUISE_SPEED - v) / CRUISE_SPEED + CRUISE_BIAS
  else 0

/-- The brake command the cruise controller computes at speed v
(src/main.cpp lines 152-164), as a function of the speed alone. -/
def cruiseBrakes (v : ℚ) : ℚ :=
  if v > CRUISE_SPEED + FRICTION_BIAS then
    (v - CRUISE_SPEED) / CRUISE_SPEED + CRUISE_BIAS
  else 0

/-- The speed after one cruise-controller cycle followed by one
simulateCar cycle, with ignition on, as a function of the speed alone. -/
def nextSpeed (v : ℚ) : ℚ :=
  clampSpeed (applyDrag (v + (cruiseAccel v - cruiseBrakes v)))

/-- The start state of the cruise-convergence scenario: ignition on, cruise
mode on, at rest. -/
def c3Init : CarState :=
  { ignition := true, cruise_mode := true, accel := 0, brakes := 0,
    current_speed := 0, average_speed := 0, odometry := 0, avg_speed_queue := [] }

/-- n cycles of the composed loop: one cruiseControl cycle (cruise switch
held on) followed by one simulateCar cycle, from c3Init. -/
def c3Run : ℕ → CarState
  | 0 => c3Init
  | n + 1 => simulateCar (cruiseControl true (c3Run n))

/-- A state used to exercise simulateCar with a fractional speed result:
ignition on, accelerator command 1/2, at rest. -/
def fracState : CarState :=
  { ignition := true, cruise_mode := false, accel := 1 / 2, brakes := 0,
    current_speed := 0, average_speed := 0, odometry := 0, avg_speed_queue := [] }

/-- A state used to exercise simulateCar with ignition off and a nonzero
accelerator command. -/
def ignOffState : CarState :=
  { ignition := false, cruise_mode := false, accel := 1, brakes := 1,
    current_speed := 10, average_speed := 0, odometry := 0, avg_speed_queue := [] }

/-- A state in cruise mode above the cruise band, used as a witness. -/
def fastCruiseState : CarState :=
  { ignition := true, cruise_mode := true, accel := 0, brakes := 0,
    current_speed := 100, average_speed := 0, odometry := 0, avg_speed_queue := [] }

/-- The speed of the cruise-convergence scenario after n composed cycles. -/
def vseq (n : ℕ) : ℚ := (c3Run n).current_speed

/-- A constant input environment: ignition held on, accelerator command
1000, no brakes.  The resulting post-clamp speed is exactly 300 from the
first cycle on. -/
def env0 : ℕ → Bool × ℚ × ℚ := fun _ => (true, 1000, 0)

/-- A state whose speed history is the test vector [100, 150, 150, 150]. -/
def avgWitState : CarState :=
  { ignition := true, cruise_mode := false, accel := 0, brakes := 0,
    current_speed := 150, average_speed := 0, odometry := 0,
    avg_speed_queue := [100, 150, 150, 150] }

/-- The two mutexes of src/main.cpp lines 48-49 that guard shared data:
portMutex is the input-domain lock, avgSpeedMutex the motion-domain lock.
(engineMutex on line 48 is declared but never locked.) -/
inductive SharedLock where
  | portMutex
  | avgSpeedMutex
deriving DecidableEq, Fintype

/-- The five periodic tasks of src/main.cpp. -/
inductive TaskId where
  | readInputs
  | calcAverageSpeed
  | displayToLCD
  | cruiseControl
  | simulateCar
deriving DecidableEq, Fintype

/-- The locks each task acquires in one iteration, in acquisition order,
transcribed from the lock calls in src/main.cpp: readInputs locks portMutex
(line 69); calcAverageSpeed locks avgSpeedMutex (line 94); displayToLCD
locks avgSpeedMutex then portMutex (lines 117-118); cruiseControl locks
portMutex (line 145); simulateCar locks avgSpeedMutex (line 184). -/
def locksAcquired : TaskId → List SharedLock
  | TaskId.readInputs => [SharedLock.portMutex]
  | TaskId.calcAverageSpeed => [SharedLock.avgSpeedMutex]
  | TaskId.displayToLCD => [SharedLock.avgSpeedMutex, SharedLock.portMutex]
  | TaskId.cruiseControl => [SharedLock.portMutex]
  | TaskId.simulateCar => [SharedLock.avgSpeedMutex]

/-- A task acquires both domain locks in one iteration. -/
def acquiresBoth (t : TaskId) : Prop :=
  SharedLock.portMutex ∈ locksAcquired t ∧ SharedLock.avgSpeedMutex ∈ locksAcquired t

/-- Task t requests lock w while already holding lock h: h appears strictly
before w in its acquisition sequence. -/
def holdsThenRequests (t : TaskId) (h w : SharedLock) : Prop :=
  h ∈ locksAcquired t ∧ w ∈ locksAcquired t ∧
    (locksAcquired t).indexOf h < (locksAcquired t).indexOf w

instance (t : TaskId) : Decidable (acquiresBoth t) := by
  unfold acquiresBoth
  infer_instance

instance (t : TaskId) (h w : SharedLock) : Decidable (holdsThenRequests t h w) := by
  unfold holdsThenRequests
  infer_instance

/-! ### Helper lemmas -/

theorem clampSpeed_nonneg (v : ℚ) : 0 ≤ clampSpeed v := by
  unfold clampSpeed clampHigh clampLow MIN_SPEED MAX_SPEED
  split_ifs <;> linarith

theorem clampSpeed_le (v : ℚ) : clampSpeed v ≤ 300 := by
  unfold clampSpeed clampHigh clampLow MIN_SPEED MAX_SPEED
  split_ifs <;> linarith

theorem simulateCar_speed (s : CarState) :
    (simulateCar s).current_speed = clampSpeed (applyDrag (preDragSpeed s)) := rfl

theorem simulateCar_queue (s : CarState) :
    (simulateCar s).avg_speed_queue =
      pushSpeed s.avg_speed_queue ((simulateCar s).current_speed) := rfl

theorem simulateCar_odometry (s : CarState) :
    (simulateCar s).odometry = s.odometry + (simulateCar s).current_speed * (1 / 25) := rfl

/-! ### Claim theorems -/

/-- Claim C1: for every state reached by installing arbitrary input values
(ignition, accel, brakes) before each cycle, the current speed after every
simulateCar cycle lies between MIN_SPEED and MAX_SPEED. -/
theorem speed_bounds_after_cycle (env : ℕ → Bool × ℚ × ℚ) (s0 : CarState) (n : ℕ) :
    MIN_SPEED ≤ (runSim env s0 (n + 1)).current_speed ∧
    (runSim env s0 (n + 1)).current_speed ≤ MAX_SPEED := by
  have h : (runSim env s0 (n + 1)).current_speed =
      clampSpeed (applyDrag (preDragSpeed (setInputs (env n) (runSim env s0 n)))) := rfl
  rw [h]
  exact ⟨clampSpeed_nonneg _, clampSpeed_le _⟩

/-- Claim C8: each simulateCar cycle adds exactly (post-clamp speed)/25 to
the odometry, and the odometry never decreases. -/
theorem odometry_monotone_update (s : CarState) :
    (simulateCar s).odometry = s.odometry + (simulateCar s).current_speed * (1 / 25) ∧
    s.odometry ≤ (simulateCar s).odometry := by
  refine ⟨rfl, ?_⟩
  have h0 : 0 ≤ (simulateCar s).current_speed := by
    rw [simulateCar_speed]; exact clampSpeed_nonneg _
  have h1 : (simulateCar s).odometry = s.odometry + (simulateCar s).current_speed * (1 / 25) := rfl
  rw [h1]
  nlinarith

/-- Claim C7: with ignition off, one simulateCar cycle forces the stored
accel command to 0 regardless of its prior value, and the speed update
before drag is current_speed plus 0 minus half the brake command. -/
theorem ignition_off_braking (s : CarState) (h : s.ignition = false) :
    (simulateCar s).accel = 0 ∧
    preDragSpeed s = s.current_speed + (0 - (1 / 2) * s.brakes) ∧
    (simulateCar s).current_speed =
      clampSpeed (applyDrag (s.current_speed + (0 - (1 / 2) * s.brakes))) := by
  refine ⟨?_, ?_, ?_⟩
  · simp [simulateCar, h]
  · simp [preDragSpeed, h]
  · rw [simulateCar_speed]
    simp [preDragSpeed, h]

/-- Witness for C7 at a concrete state with ignition off, accel 1,
brakes 1 and speed 10. -/
theorem ignition_off_braking_witness :
    (simulateCar ignOffState).accel = 0 ∧
    preDragSpeed ignOffState = ignOffState.current_speed + (0 - (1 / 2) * ignOffState.brakes) ∧
    (simulateCar ignOffState).current_speed =
      clampSpeed (applyDrag (ignOffState.current_speed + (0 - (1 / 2) * ignOffState.brakes))) :=
  ignition_off_braking ignOffState rfl

/-- Claim C6: at startup (empty speed history) the Speed Averager divides
the queue sum by the queue size 0; the division is a genuine division by
zero (none), not a defined average of 0. -/
theorem startup_average_division_by_zero :
    calcAverageSpeedTask initState = none ∧ calcAverage [] = none :=
  ⟨rfl, rfl⟩

/-- Claim C2: with the cruise switch read as on and ignition on, one
cruiseControl cycle sets the pedal commands exactly by the proportional law
of src/main.cpp lines 152-164. -/
theorem cruise_proportional_law (ccBit : Bool) (s : CarState)
    (hcc : ccBit = true) (hig : s.ignition = true) :
    (s.current_speed > CRUISE_SPEED + FRICTION_BIAS →
        (cruiseControl ccBit s).accel = 0 ∧
        (cruiseControl ccBit s).brakes =
          (s.current_speed - CRUISE_SPEED) / CRUISE_SPEED + CRUISE_BIAS) ∧
    (s.current_speed < CRUISE_SPEED + FRICTION_BIAS →
        (cruiseControl ccBit s).accel =
          (CRUISE_SPEED - s.current_speed) / CRUISE_SPEED + CRUISE_BIAS ∧
        (cruiseControl ccBit s).brakes = 0) ∧
    (s.current_speed = CRUISE_SPEED + FRICTION_BIAS →
        (cruiseControl ccBit s).accel = 0 ∧ (cruiseControl ccBit s).brakes = 0) := by
  subst hcc
  refine ⟨fun hv => ?_, fun hv => ?_, fun hv => ?_⟩
  · simp [cruiseControl, hig, hv]
  · have hnot : ¬ s.current_speed > CRUISE_SPEED + FRICTION_BIAS := by linarith
    simp [cruiseControl, hig, hv, hnot]
  · have h1 : ¬ s.current_speed > CRUISE_SPEED + FRICTION_BIAS := by
      rw [hv]; exact lt_irrefl _
    have h2 : ¬ s.current_speed < CRUISE_SPEED + FRICTION_BIAS := by rw [hv]; exact lt_irrefl _
    simp [cruiseControl, hig, h1, h2]

/-- Witness for C2 at a concrete cruising state with speed 100, above the
cruise band: accel goes to 0 and brakes to the proportional value. -/
theorem cruise_proportional_law_witness :
    (cruiseControl true fastCruiseState).accel = 0 ∧
    (cruiseControl true fastCruiseState).brakes =
      (fastCruiseState.current_speed - CRUISE_SPEED) / CRUISE_SPEED + CRUISE_BIAS := by
  have hv : fastCruiseState.current_speed > CRUISE_SPEED + FRICTION_BIAS := by
    norm_num [fastCruiseState, CRUISE_SPEED, FRICTION_BIAS]
  exact (cruise_proportional_law true fastCruiseState rfl rfl).1 hv

/-- Claim C5: for a non-empty history, one Speed Averager cycle sets the
average to the arithmetic mean of the entries and reports the speeding
indicator exactly when that mean is strictly above LEGAL_SPEED. -/
theorem average_speed_mean (s : CarState) (h : s.avg_speed_queue ≠ []) :
    ∃ s1 ind, calcAverageSpeedTask s = some (s1, ind) ∧
      s1.average_speed =
        (s.avg_speed_queue.map (fun z : ℤ => (z : ℚ))).sum / (s.avg_speed_queue.length : ℚ) ∧
      (ind = true ↔ s1.average_speed > LEGAL_SPEED) := by
  have hlen : s.avg_speed_queue.length ≠ 0 := by
    simpa [List.length_eq_zero] using h
  have hfold : ∀ (q : List ℤ) (a : ℚ),
      q.foldl (fun (acc : ℚ) (x : ℤ) => acc + (x : ℚ)) a
        = a + (q.map (fun z : ℤ => (z : ℚ))).sum := by
    intro q
    induction q with
    | nil => intro a; simp
    | cons x t ih => intro a; simp [ih, add_assoc]
  have hsum : s.avg_speed_queue.foldl (fun (acc : ℚ) (x : ℤ) => acc + (x : ℚ)) 0
      = (s.avg_speed_queue.map (fun z : ℤ => (z : ℚ))).sum := by
    rw [hfold]; ring
  refine ⟨{ s with average_speed :=
      (s.avg_speed_queue.map (fun z : ℤ => (z : ℚ))).sum / (s.avg_speed_queue.length : ℚ) },
    decide ((s.avg_speed_queue.map (fun z : ℤ => (z : ℚ))).sum / (s.avg_speed_queue.length : ℚ)
      > LEGAL_SPEED), ?_, rfl, by simp⟩
  unfold calcAverageSpeedTask calcAverage
  rw [if_neg hlen, hsum]
  rfl

/-- Witness for C5 on the history [100, 150, 150, 150]: the task produces
the mean of the stored entries and compares it against LEGAL_SPEED. -/
theorem average_speed_mean_witness :
    ∃ s1 ind, calcAverageSpeedTask avgWitState = some (s1, ind) ∧
      s1.average_speed =
        (avgWitState.avg_speed_queue.map (fun z : ℤ => (z : ℚ))).sum /
          (avgWitState.avg_speed_queue.length : ℚ) ∧
      (ind = true ↔ s1.average_speed > LEGAL_SPEED) :=
  average_speed_mean avgWitState (by simp [avgWitState])

/-- Counterexample to C9: the Physics Integrator itself writes the accel
command.  At a state with ignition off and accel 1, one simulateCar cycle
changes accel, so the pedal commands are not written only by the Input
Sampler and the Cruise Controller. -/
theorem pedal_writer_counterexample :
    (simulateCar ignOffState).accel ≠ ignOffState.accel := by
  simp [simulateCar, ignOffState]

/-- Claim C9 (amended): the Input Sampler writes the pedals only when
cruise mode is off; the Cruise Controller writes them only when cruise mode
and ignition are both on; the Physics Integrator additionally writes
accel := 0 whenever ignition is off (and never writes brakes, and leaves
the pedals alone when ignition is on); the Speed Averager and the Display
Publisher never write them. -/
theorem pedal_single_writer_amended :
    (∀ (s : CarState) (e a b : Bool), s.cruise_mode = true →
        (readInputs e a b s).accel = s.accel ∧ (readInputs e a b s).brakes = s.brakes) ∧
    (∀ (s : CarState) (c : Bool), (c && s.ignition) = false →
        (cruiseControl c s).accel = s.accel ∧ (cruiseControl c s).brakes = s.brakes) ∧
    (∀ s : CarState, s.ignition = true → (simulateCar s).accel = s.accel) ∧
    (∀ s : CarState, (simulateCar s).brakes = s.brakes) ∧
    (∀ s : CarState, s.ignition = false → (simulateCar s).accel = 0) ∧
    (∀ (s s1 : CarState) (ind : Bool), calcAverageSpeedTask s = some (s1, ind) →
        s1.accel = s.accel ∧ s1.brakes = s.brakes) ∧
    (∀ s : CarState, (displayToLCD s).accel = s.accel ∧ (displayToLCD s).brakes = s.brakes) := by
  refine ⟨?_, ?_, ?_, ?_, ?_, ?_, ?_⟩
  · intro s e a b h
    simp [readInputs, h]
  · intro s c h
    simp [cruiseControl, h]
  · intro s h
    simp [simulateCar, h]
  · intro s
    rfl
  · intro s h
    simp [simulateCar, h]
  · intro s s1 ind h
    unfold calcAverageSpeedTask at h
    cases hq : calcAverage s.avg_speed_queue with
    | none => rw [hq] at h; exact absurd h (by simp)
    | some a =>
        rw [hq] at h
        have h2 : (({ s with average_speed := a } : CarState),
            decide (a > LEGAL_SPEED)) = (s1, ind) := Option.some.inj h
        have h1 : ({ s with average_speed := a } : CarState) = s1 :=
          congrArg Prod.fst h2
        subst h1
        exact ⟨rfl, rfl⟩
  · intro s
    exact ⟨rfl, rfl⟩

/-- Counterexample to C10: the Display Publisher acquires both domain
locks, and it acquires the motion-domain lock (avgSpeedMutex) before the
input-domain lock (portMutex), not input before motion as claimed. -/
theorem lock_order_counterexample :
    acquiresBoth TaskId.displayToLCD ∧
    holdsThenRequests TaskId.displayToLCD SharedLock.avgSpeedMutex SharedLock.portMutex ∧
    ¬ holdsThenRequests TaskId.displayToLCD SharedLock.portMutex SharedLock.avgSpeedMutex := by
  decide

/-- Claim C10 (amended): the Display Publisher is the only task acquiring
both domain locks, it acquires them in the order motion domain then input
domain, and no two tasks acquire the two locks in opposite orders, so a
deadlock between the two domain locks is impossible. -/
theorem lock_order_amended :
    (∀ t, acquiresBoth t → t = TaskId.displayToLCD) ∧
    locksAcquired TaskId.displayToLCD = [SharedLock.avgSpeedMutex, SharedLock.portMutex] ∧
    ¬ (∃ t1 t2, holdsThenRequests t1 SharedLock.portMutex SharedLock.avgSpeedMutex ∧
        holdsThenRequests t2 SharedLock.avgSpeedMutex SharedLock.portMutex) := by
  refine ⟨by decide, rfl, by decide⟩

theorem runSim_queue_succ (env : ℕ → Bool × ℚ × ℚ) (s0 : CarState) (n : ℕ) :
    (runSim env s0 (n + 1)).avg_speed_queue =
      pushSpeed ((runSim env s0 n).avg_speed_queue)
        ((runSim env s0 (n + 1)).current_speed) := rfl

theorem histList_succ (env : ℕ → Bool × ℚ × ℚ) (s0 : CarState) (n : ℕ) :
    histList env s0 (n + 1) =
      histList env s0 n ++ [f2i ((runSim env s0 (n + 1)).current_speed)] := by
  simp [histList, List.range_succ]

theorem histList_length (env : ℕ → Bool × ℚ × ℚ) (s0 : CarState) (n : ℕ) :
    (histList env s0 n).length = n := by
  simp [histList]

theorem queue_eq_drop (env : ℕ → Bool × ℚ × ℚ) (s0 : CarState)
    (h : s0.avg_speed_queue = []) (n : ℕ) :
    (runSim env s0 n).avg_speed_queue = (histList env s0 n).drop (n - 4) := by
  induction n with
  | zero => simp [runSim, histList, h]
  | succ k ih =>
    rw [runSim_queue_succ, histList_succ, ih, pushSpeed]
    by_cases hk : 4 ≤ k
    · have hlen : ((histList env s0 k).drop (k - 4)).length > 3 := by
        rw [List.length_drop, histList_length]
        omega
      rw [if_pos hlen]
      have h1 : ((histList env s0 k).drop (k - 4)).tail
          = (histList env s0 k).drop (k - 3) := by
        rw [← List.drop_one, List.drop_drop]
        congr 1
        omega
      rw [h1, List.drop_append_eq_append_drop]
      have h2 : k + 1 - 4 = k - 3 := by omega
      have h3 : k - 3 - (histList env s0 k).length = 0 := by
        rw [histList_length]; omega
      rw [h2, h3]
      simp
    · have hlen : ¬ ((histList env s0 k).drop (k - 4)).length > 3 := by
        rw [List.length_drop, histList_length]
        omega
      rw [if_neg hlen]
      have h1 : k - 4 = 0 := by omega
      have h2 : k + 1 - 4 = 0 := by omega
      rw [h1, h2]
      simp

/-- Counterexample to C4: with ignition on and accel command 1/2, one
simulateCar cycle from rest produces the post-clamp speed 999/2000 but
stores the truncated entry 0 in the history, so the window entries do not
equal the recent post-clamp speed values. -/
theorem history_entries_counterexample :
    (simulateCar fracState).avg_speed_queue = [0] ∧
    (simulateCar fracState).current_speed = 999 / 2000 ∧
    ¬ ((simulateCar fracState).avg_speed_queue.map (fun z : ℤ => (z : ℚ))
        = [(simulateCar fracState).current_speed]) := by
  have hspd : (simulateCar fracState).current_speed = 999 / 2000 := by
    rw [simulateCar_speed]
    norm_num [preDragSpeed, applyDrag, clampSpeed, clampLow, clampHigh,
      fracState, FRICTION, MIN_SPEED, MAX_SPEED]
  have hfloor : f2i (999 / 2000 : ℚ) = 0 := by
    unfold f2i
    rw [if_neg (by norm_num)]
    rw [Int.floor_eq_zero_iff]
    constructor <;> norm_num
  have hq : (simulateCar fracState).avg_speed_queue = [0] := by
    rw [simulateCar_queue, hspd]
    simp [pushSpeed, fracState, hfloor]
  refine ⟨hq, hspd, ?_⟩
  rw [hq, hspd]
  norm_num

/-- Claim C4 (amended): starting from an empty history, the window holds
min n 4 entries after n simulateCar cycles (so never more than 4, and
exactly 4 after 4 or more cycles), and after 4 or more cycles its entries
are, oldest first, the truncations toward zero (the C++ float-to-int
conversion of the int deque) of the 4 most recent post-clamp speeds. -/
theorem history_window_amended (env : ℕ → Bool × ℚ × ℚ) (s0 : CarState)
    (h : s0.avg_speed_queue = []) :
    (∀ n, (runSim env s0 n).avg_speed_queue.length = min n 4) ∧
    (∀ n, 4 ≤ n → (runSim env s0 n).avg_speed_queue =
      [f2i ((runSim env s0 (n - 3)).current_speed),
       f2i ((runSim env s0 (n - 2)).current_speed),
       f2i ((runSim env s0 (n - 1)).current_speed),
       f2i ((runSim env s0 n).current_speed)]) := by
  constructor
  · intro n
    rw [queue_eq_drop env s0 h n, List.length_drop, histList_length]
    omega
  · intro n hn
    obtain ⟨m, rfl⟩ : ∃ m, n = m + 4 := ⟨n - 4, by omega⟩
    rw [queue_eq_drop env s0 h (m + 4)]
    have h1 : m + 4 - 4 = m := by omega
    rw [h1]
    have h2 : histList env s0 (m + 4) =
        ((List.range m).map (fun i => f2i ((runSim env s0 (i + 1)).current_speed))) ++
        ((List.range 4).map (fun j => f2i ((runSim env s0 (m + j + 1)).current_speed))) := by
      unfold histList
      rw [List.range_add, List.map_append, List.map_map]
      rfl
    have h3 : ((List.range m).map
        (fun i => f2i ((runSim env s0 (i + 1)).current_speed))).length = m := by
      simp
    rw [h2, List.drop_append_eq_append_drop, h3]
    have h7 : List.drop m
        ((List.range m).map (fun i => f2i ((runSim env s0 (i + 1)).current_speed))) = [] :=
      List.drop_eq_nil_of_le (le_of_eq h3)
    rw [h7]
    have h4 : m + 4 - 3 = m + 1 := by omega
    have h5 : m + 4 - 2 = m + 2 := by omega
    have h6 : m + 4 - 1 = m + 3 := by omega
    rw [h4, h5, h6]
    have hr : List.range 4 = [0, 1, 2, 3] := by decide
    rw [hr]
    simp only [Nat.sub_self, List.drop_zero, List.map_cons, List.map_nil, List.nil_append]

/-- Witness for C4 (amended) at the constant environment env0 after 5
cycles: the window length is min 5 4 = 4 and the entries are the truncated
speeds of cycles 2, 3, 4 and 5. -/
theorem history_window_amended_witness :
    (runSim env0 initState 5).avg_speed_queue.length = min 5 4 ∧
    (runSim env0 initState 5).avg_speed_queue =
      [f2i ((runSim env0 initState 2).current_speed),
       f2i ((runSim env0 initState 3).current_speed),
       f2i ((runSim env0 initState 4).current_speed),
       f2i ((runSim env0 initState 5).current_speed)] := by
  have h := history_window_amended env0 initState rfl
  refine ⟨h.1 5, ?_⟩
  have h2 := h.2 5 (by norm_num)
  norm_num at h2
  exact h2

/-! ### Cruise-convergence development (claim C3) -/

theorem cruiseControl_ignition (ccBit : Bool) (s : CarState) :
    (cruiseControl ccBit s).ignition = s.ignition := by
  unfold cruiseControl
  split_ifs <;> rfl

theorem simulateCar_ignition (s : CarState) :
    (simulateCar s).ignition = s.ignition := rfl

theorem c3Run_ignition (n : ℕ) : (c3Run n).ignition = true := by
  induction n with
  | zero => rfl
  | succ k ih =>
    show (simulateCar (cruiseControl true (c3Run k))).ignition = true
    rw [simulateCar_ignition, cruiseControl_ignition, ih]

theorem c3_speed_step (s : CarState) (hig : s.ignition = true) :
    (simulateCar (cruiseControl true s)).current_speed = nextSpeed s.current_speed := by
  rw [simulateCar_speed]
  unfold nextSpeed preDragSpeed cruiseAccel cruiseBrakes cruiseControl
  rw [hig]
  by_cases h1 : s.current_speed > CRUISE_SPEED + FRICTION_BIAS
  · simp [h1]
  · by_cases h2 : s.current_speed < CRUISE_SPEED + FRICTION_BIAS
    · simp [h1, h2]
    · simp [h1, h2]

theorem vseq_succ (n : ℕ) : vseq (n + 1) = nextSpeed (vseq n) :=
  c3_speed_step (c3Run n) (c3Run_ignition n)

theorem vseq_nonneg (n : ℕ) : 0 ≤ vseq n := by
  cases n with
  | zero => exact le_refl 0
  | succ k =>
    rw [vseq_succ]
    exact clampSpeed_nonneg _

theorem climb_step (v : ℚ) (h0 : 0 ≤ v) (h1 : v < 396 / 5) :
    v + 3 / 100 ≤ nextSpeed v ∧ nextSpeed v ≤ 7923069 / 100000 := by
  unfold nextSpeed cruiseAccel cruiseBrakes applyDrag clampSpeed clampHigh clampLow
    CRUISE_SPEED FRICTION_BIAS CRUISE_BIAS FRICTION MIN_SPEED MAX_SPEED
  constructor <;> (split_ifs <;> linarith)

theorem band_invariant (v : ℚ) (h0 : 396 / 5 ≤ v) (h1 : v ≤ 8080911 / 100000) :
    396 / 5 ≤ nextSpeed v ∧ nextSpeed v ≤ 8080911 / 100000 := by
  unfold nextSpeed cruiseAccel cruiseBrakes applyDrag clampSpeed clampHigh clampLow
    CRUISE_SPEED FRICTION_BIAS CRUISE_BIAS FRICTION MIN_SPEED MAX_SPEED
  constructor <;> (split_ifs <;> linarith)

theorem overshoot_recovery (v : ℚ) (h0 : 404 / 5 < v) (h1 : v ≤ 8080911 / 100000) :
    nextSpeed v ≤ 404 / 5 := by
  unfold nextSpeed cruiseAccel cruiseBrakes applyDrag clampSpeed clampHigh clampLow
    CRUISE_SPEED FRICTION_BIAS CRUISE_BIAS FRICTION MIN_SPEED MAX_SPEED
  split_ifs <;> linarith

theorem exists_band_entry : ∃ n, 396 / 5 ≤ vseq n := by
  by_contra hc
  push_neg at hc
  have grow : ∀ n : ℕ, (n : ℚ) * (3 / 100) ≤ vseq n := by
    intro n
    induction n with
    | zero => norm_num [vseq, c3Run, c3Init]
    | succ k ih =>
      have hk := hc k
      have hstep := (climb_step (vseq k) (vseq_nonneg k) hk).1
      rw [vseq_succ]
      push_cast
      linarith
  have h1 := grow 2640
  have h2 := hc 2640
  norm_num at h1
  linarith

theorem exists_good_start :
    ∃ N, 396 / 5 ≤ vseq N ∧ vseq N ≤ 8080911 / 100000 := by
  cases hfind : Nat.find exists_band_entry with
  | zero =>
    have hN := Nat.find_spec exists_band_entry
    rw [hfind] at hN
    have : vseq 0 = 0 := rfl
    rw [this] at hN
    norm_num at hN
  | succ k =>
    have hN := Nat.find_spec exists_band_entry
    rw [hfind] at hN
    have hklt : k < Nat.find exists_band_entry := by
      rw [hfind]
      exact Nat.lt_succ_self k
    have hk : vseq k < 396 / 5 := not_le.mp (Nat.find_min exists_band_entry hklt)
    have hstep := (climb_step (vseq k) (vseq_nonneg k) hk).2
    refine ⟨k + 1, hN, ?_⟩
    rw [vseq_succ]
    linarith

/-- Claim C3: from ignition on, cruise mode on, speed 0, iterating one
cruiseControl cycle followed by one simulateCar cycle, there is a cycle
count N after which the speed always stays within FRICTION_BIAS of
CRUISE_SPEED up to a transient overshoot of at most 1/100 above the band,
and any cycle that overshoots the band is back inside it (at or below
CRUISE_SPEED + FRICTION_BIAS) on the very next cycle, so no overshoot
beyond the bias band is ever sustained. -/
theorem cruise_convergence :
    ∃ N : ℕ, ∀ n, N ≤ n →
      (CRUISE_SPEED - FRICTION_BIAS ≤ (c3Run n).current_speed ∧
       (c3Run n).current_speed ≤ CRUISE_SPEED + FRICTION_BIAS + 1 / 100) ∧
      (CRUISE_SPEED + FRICTION_BIAS < (c3Run n).current_speed →
        (c3Run (n + 1)).current_speed ≤ CRUISE_SPEED + FRICTION_BIAS) := by
  obtain ⟨N, hlo, hhi⟩ := exists_good_start
  have hband : ∀ n, N ≤ n → 396 / 5 ≤ vseq n ∧ vseq n ≤ 8080911 / 100000 := by
    intro n
    induction n with
    | zero =>
      intro hn
      have h0 : N = 0 := Nat.le_zero.mp hn
      rw [← h0]
      exact ⟨hlo, hhi⟩
    | succ k ih =>
      intro hn
      rcases Nat.lt_or_ge N (k + 1) with h | h
      · have hk := ih (Nat.lt_succ_iff.mp h)
        rw [vseq_succ]
        exact band_invariant (vseq k) hk.1 hk.2
      · have h0 : N = k + 1 := le_antisymm hn h
        rw [← h0]
        exact ⟨hlo, hhi⟩
  refine ⟨N, ?_⟩
  intro n hn
  have hb := hband n hn
  have hv : vseq n = (c3Run n).current_speed := rfl
  have hv1 : vseq (n + 1) = (c3Run (n + 1)).current_speed := rfl
  rw [hv] at hb
  unfold CRUISE_SPEED FRICTION_BIAS
  refine ⟨⟨by linarith [hb.1], by linarith [hb.2]⟩, ?_⟩
  intro hover
  have hrec := overshoot_recovery ((c3Run n).current_speed)
    (by linarith) (by linarith [hb.2])
  rw [← hv, ← vseq_succ, hv1] at hrec
  linarith

end CarSim
